import Mathlib

/-!
Verification development for the DeepSea stage parser
(`src/cli/stage_parser.py`).  The Python module is shallowly embedded:
rendered YAML data becomes the inductive type `Value`, the step classes
become the structure `Step`, the recursive state traversal becomes a
fuel-indexed function `traverse` over an explicit environment (filesystem
queries, renderer output) and an explicit mutable state (cache contents,
renderer invocation count), and Python exceptions become `Except Err`.
-/

namespace DeepSea

/-- Rendered YAML data as handled by the parser: Python `None`, booleans,
integers, strings, lists and (insertion-ordered) dicts. -/
inductive Value where
  | null : Value
  | bool : Bool → Value
  | int : Int → Value
  | str : String → Value
  | list : List Value → Value
  | dict : List (String × Value) → Value

mutual

/-- Python `==` on values (syntactic; the parser only ever compares
strings, which Python compares structurally). -/
def Value.beq : Value → Value → Bool
  | Value.null, Value.null => true
  | Value.bool a, Value.bool b => a == b
  | Value.int a, Value.int b => a == b
  | Value.str a, Value.str b => a == b
  | Value.list xs, Value.list ys => Value.beqList xs ys
  | Value.dict xs, Value.dict ys => Value.beqDict xs ys
  | _, _ => false

def Value.beqList : List Value → List Value → Bool
  | [], [] => true
  | a :: as', b :: bs => Value.beq a b && Value.beqList as' bs
  | _, _ => false

def Value.beqDict : List (String × Value) → List (String × Value) → Bool
  | [], [] => true
  | (ka, va) :: as', (kb, vb) :: bs => ka == kb && Value.beq va vb && Value.beqDict as' bs
  | _, _ => false

end

/-- Python truthiness of a value (`if req:` and friends). -/
def pyTruthy : Value → Bool
  | Value.null => false
  | Value.bool b => b
  | Value.int n => n != 0
  | Value.str s => s != ""
  | Value.list xs => !xs.isEmpty
  | Value.dict kvs => !kvs.isEmpty

/-- Whether a value is a Python dict (`isinstance(steps, dict)`). -/
def Value.isDict : Value → Bool
  | Value.dict _ => true
  | _ => false

/-- The `isinstance(steps, dict)` test together with the dict's items:
`some` of the pairs when the value is a dict, `none` otherwise. -/
def Value.asDict : Value → Option (List (String × Value))
  | Value.dict kvs => some kvs
  | _ => none

/-- Extracts a string from an optional value (`some` only when present
and a string). -/
def opt_str : Option Value → Option String
  | some (Value.str s) => some s
  | _ => none

/-- Python iteration `for x in v`: lists yield elements, dicts yield their
keys, strings their one-character substrings; other values raise
`TypeError` (`none`). -/
def py_iter : Value → Option (List Value)
  | Value.list l => some l
  | Value.dict d => some (d.map (fun p => Value.str p.1))
  | Value.str s => some (s.toList.map (fun c => Value.str (String.mk [c])))
  | _ => none

/-- Substring test on character lists (Python `key in some_string`). -/
def charsContain : List Char → List Char → Bool
  | n, [] => n.isEmpty
  | n, c :: t => n.isPrefixOf (c :: t) || charsContain n t

/-- Python `key in v` as used by `SaltStep.get_arg` on list elements:
dict → key membership, string → substring test, list → element equality.
`key in` an int/bool/None raises `TypeError` in Python; the parser never
reaches that case and it is modelled as `false`. -/
def pyIn (key : String) : Value → Bool
  | Value.dict d => d.any (fun p => p.1 == key)
  | Value.str s => charsContain key.toList s.toList
  | Value.list xs => xs.any (fun x => Value.beq x (Value.str key))
  | _ => false

/-- Python dict assignment `d[k] = v` on an insertion-ordered association
list: an existing key is overwritten in place, a new key is appended. -/
def pyDictSet {κ α : Type} [DecidableEq κ] (c : List (κ × α)) (k : κ) (v : α) : List (κ × α) :=
  if c.any (fun p => p.1 = k) then c.map (fun p => if p.1 = k then (k, v) else p)
  else c ++ [(k, v)]

/-- Python dict lookup `d[k]` / `d.get(k)` on an association list. -/
def pyDictGet {κ α : Type} [DecidableEq κ] (c : List (κ × α)) (k : κ) : Option α :=
  (c.find? (fun p => p.1 = k)).map (fun p => p.2)

/-! ### String helpers with Python semantics -/

/-- Number of characters in a string (Python `len`). -/
def pyLen (s : String) : Nat := s.toList.length

/-- First `n` characters of a string (Python `s[:n]` for `n ≥ 0`). -/
def pyTake (s : String) (n : Nat) : String := String.mk (s.toList.take n)

/-- String without its first `n` characters (Python `s[n:]` for `n ≥ 0`). -/
def pyDrop (s : String) (n : Nat) : String := String.mk (s.toList.drop n)

/-- Python `s[:i]` for a possibly negative bound `i`. -/
def pySliceTo (s : String) (i : Int) : String :=
  if 0 ≤ i then pyTake s i.toNat else pyTake s ((pyLen s : Int) + i).toNat

def pyFindAux : List Char → Char → Nat → Int
  | [], _, _ => -1
  | x :: xs, c, i => if x = c then (i : Int) else pyFindAux xs c (i + 1)

/-- Python `s.find(c)`: index of the first occurrence, `-1` if absent. -/
def pyFind (s : String) (c : Char) : Int := pyFindAux s.toList c 0

/-- Python `s.startswith(pre)`. -/
def pyStartsWith (s pre : String) : Bool := pre.toList.isPrefixOf s.toList

/-- Python `s.replace(".", "/")` (single-character pattern). -/
def replaceDots (s : String) : String :=
  String.mk (s.toList.map (fun c => if c = '.' then '/' else c))

/-- Python `s.split('.')` on the character list: `""` splits to `[""]`,
separators at the ends produce empty segments. -/
def splitOnDot : List Char → List (List Char)
  | [] => [[]]
  | c :: cs =>
    match splitOnDot cs with
    | [] => [[c]]
    | g :: gs => if c = '.' then [] :: g :: gs else (c :: g) :: gs

/-- Python `s.split('.')`. -/
def splitDots (s : String) : List String := (splitOnDot s.toList).map (fun cs => String.mk cs)

/-- Python `".".join(segs)`. -/
def joinDots : List String → String
  | [] => ""
  | [s] => s
  | s :: rest => s ++ "." ++ joinDots rest

/-- Number of leading `'.'` characters (the dot-counting loop of
`_gen_state_name_from_include`). -/
def countLeadingDots : List Char → Nat
  | [] => 0
  | c :: cs => if c = '.' then countLeadingDots cs + 1 else 0

/-! ### Identifier resolver (`SLSParser._gen_state_name_from_include`)

The filesystem query `SLSParser._state_name_is_dir` is an external
collaborator and enters as the function parameter `is_dir`. -/

/-- Embedding of `SLSParser._gen_state_name_from_include`: count the
leading dots of the include reference, strip them, bump the count by one
when the parent state is not a directory, truncate the parent by
`dot_count - 1` trailing segments when `dot_count > 1` (Python
`split('.')[:-(dot_count - 1)]`), and join with the stripped segment. -/
def gen_state_name_from_include (is_dir : String → Bool) (parent_state inc : String) : String :=
  let dot_count := countLeadingDots inc.toList
  let inc' := pyDrop inc dot_count
  let dot_count' := if is_dir parent_state then dot_count else dot_count + 1
  let parent' :=
    if dot_count' > 1 then
      joinDots ((splitDots parent_state).take ((splitDots parent_state).length - (dot_count' - 1)))
    else parent_state
  parent' ++ "." ++ inc'

/-- Iterated `List.dropLast`: removing the trailing `k` elements. -/
def iterDropLast {α : Type} : Nat → List α → List α
  | 0, l => l
  | k + 1, l => iterDropLast k l.dropLast

/-- Include resolution as worded by the spec (§4.1): count the leading `.`
characters as `d`, strip them, increment `d` when the parent identifier is
not composite, remove the trailing `(d-1)` dotted segments of the parent
when `d > 1`, and append `"."` and the remaining segment name. -/
def resolve_include_spec (is_composite : String → Bool) (parent ref : String) : String :=
  let d := countLeadingDots ref.toList
  let segment := pyDrop ref d
  let d' := if is_composite parent then d else d + 1
  let parent' :=
    if d' > 1 then joinDots (iterDropLast (d' - 1) (splitDots parent))
    else parent
  parent' ++ "." ++ segment

/-! ### Step model -/

/-- The four step variants of the parser (`SaltState`, `SaltRunner`,
`SaltModule`, `SaltBuiltIn`). -/
inductive StepKind where
  | state : StepKind
  | runner : StepKind
  | module : StepKind
  | builtin : StepKind
deriving DecidableEq

/-- A parsed step: its variant, the declaration key (`desc`), the function
name (`fun` in Python: the `name` argument for runners and modules, the
literal function identifier for built-ins; `SaltState` has no `fun`
attribute and the field is unused for it), and its raw or normalized
arguments. -/
structure Step where
  kind : StepKind
  desc : String
  fn : String
  args : Value

/-- Embedding of `SaltStep.get_arg`: a dict is looked up directly; a list
is scanned for the first element containing the key (Python
`[arg for arg in self.args if key in arg]`) and that element, when a
dict, is indexed.  Python asserts on other argument shapes and raises
when indexing a non-dict element; those branches are unreachable for the
data the claims exercise and return `none`. -/
def get_arg (args : Value) (key : String) : Option Value :=
  match args with
  | Value.dict d => pyDictGet d key
  | Value.list l =>
    match l.find? (fun el => pyIn key el) with
    | some (Value.dict d) => pyDictGet d key
    | some _ => none
    | none => none
  | _ => none

/-- The `name` argument extracted at step construction
(`self.fun = self.get_arg('name')` for `SaltRunner`/`SaltModule`).
Python stores `None` when absent; only string values are ever consulted
by `_search_step`, and a missing name is modelled as `""`. -/
def extract_name (args : Value) : String :=
  match get_arg args "name" with
  | some (Value.str s) => s
  | _ => ""

/-- Embedding of the `SaltBuiltIn.__init__` argument normalization loop:
fold the raw argument list into one dict, merging each dict element's
pairs and storing scalar elements under the key `"nokey"`. -/
def salt_built_in_args (args : List Value) : List (String × Value) :=
  args.foldl
    (fun acc arg =>
      match arg with
      | Value.dict kvs => kvs.foldl (fun acc' kv => pyDictSet acc' kv.1 kv.2) acc
      | v => pyDictSet acc "nokey" v)
    []

/-! ### Requisite search (`SLSParser._search_step`) -/

/-- The module prefix `_search_step` compares a hint against:
`step.fun[:step.fun.find('.')]` (note `find` yields `-1` when the
function name holds no `'.'`, so the slice then drops the last
character). -/
def step_mod (s : String) : String := pySliceTo s (pyFind s '.')

/-- The name condition of `_search_step`:
`step.desc == sid or (name_arg and name_arg == sid)`. -/
def name_matches (step : Step) (sid : Value) : Bool :=
  Value.beq (Value.str step.desc) sid ||
    (match get_arg step.args "name" with
     | some v => pyTruthy v && Value.beq v sid
     | none => false)

/-- Whether one candidate step survives the `_search_step` loop body for
a requisite `(mod_name, sid)`: a truthy module hint skips `SaltRunner`
and `SaltState` candidates unless it is `"salt"`, and other candidates
unless it equals their `step_mod`; the name condition must then hold. -/
def step_matches (step : Step) (mod_name : Option String) (sid : Value) : Bool :=
  let modOk : Bool :=
    match mod_name with
    | none => true
    | some m =>
      if m = "" then true
      else
        match step.kind with
        | StepKind.runner => m = "salt"
        | StepKind.state => m = "salt"
        | _ => m = step_mod step.fn
  modOk && name_matches step sid
-- Python `if mod_name:` is also false for the empty string, hence the
-- `m = ""` case above skips the module filter exactly as `None` does.

/-- Embedding of `SLSParser._search_step`: position of the first matching
step in the plan (the Python function returns the step object itself;
steps are identified here by their index in the flat list). -/
def search_step (steps : List Step) (mod_name : Option String) (sid : Value) : Option Nat :=
  steps.findIdx? (fun step => step_matches step mod_name sid)

/-! ### Requisite linking (`SLSParser.parse_state_steps`) -/

/-- Errors of the embedded parser.  `requisiteResolutionFailure` models
the `assert req_step` failure in `parse_state_steps` (the spec's
`RequisiteResolutionFailure`); `unpicklingError` models `pickle.load`
raising on a corrupt cache file; `typeError` models Python `TypeError`
on malformed rendered data; `fuelExhausted` is the fuel bound of the
embedding (Python recursion has no such bound). -/
inductive Err where
  | orchestrationNotFound : String → Err
  | unpicklingError : Err
  | typeError : Err
  | fuelExhausted : Err
  | requisiteResolutionFailure : Err
deriving DecidableEq

/-- `if not isinstance(req, list): req = [req]`. -/
def pyReqList (req : Value) : List Value :=
  match req with
  | Value.list l => l
  | v => [v]

/-- The `(module hint, target)` pairs an individual requisite entry
yields: a dict entry yields one pair per item
(`for mod, sid in req.items()`), any other entry is searched with no
module hint. -/
def entry_pairs (entry : Value) : List (Option String × Value) :=
  match entry with
  | Value.dict kvs => kvs.map (fun kv => (some kv.1, kv.2))
  | v => [(none, v)]

/-- A step's dependency lists under construction: indices of
`on_success_deps` and of `on_fail_deps` targets. -/
abbrev Deps := List Nat × List Nat

/-- Resolve the pairs of one requisite entry in order, appending each
found index to the success list for `require`/`watch`/`onchanges` and to
the failure list for `onfail`; a failed search is the `assert req_step`
failure. -/
def link_pairs (steps : List Step) (directive : String) :
    Deps → List (Option String × Value) → Except Err Deps
  | acc, [] => Except.ok acc
  | acc, (mod, sid) :: rest =>
    match search_step steps mod sid with
    | some i =>
      let acc' :=
        if directive = "require" ∨ directive = "watch" ∨ directive = "onchanges" then
          (acc.1 ++ [i], acc.2)
        else if directive = "onfail" then (acc.1, acc.2 ++ [i])
        else acc
      link_pairs steps directive acc' rest
    | none => Except.error Err.requisiteResolutionFailure

/-- The `for req in req:` loop of `process_requisite_directive`. -/
def link_entries (steps : List Step) (directive : String) :
    Deps → List Value → Except Err Deps
  | acc, [] => Except.ok acc
  | acc, entry :: rest =>
    match link_pairs steps directive acc (entry_pairs entry) with
    | Except.ok acc' => link_entries steps directive acc' rest
    | Except.error e => Except.error e

/-- Embedding of `process_requisite_directive`: a missing or falsy
requisite value is skipped, otherwise the value is normalized to a list
and every entry is resolved. -/
def process_requisite_directive (steps : List Step) (step : Step) (directive : String)
    (acc : Deps) : Except Err Deps :=
  match get_arg step.args directive with
  | none => Except.ok acc
  | some req => if pyTruthy req then link_entries steps directive acc (pyReqList req) else Except.ok acc

/-- The four requisite directives, in processing order. -/
def directives : List String := ["require", "watch", "onchanges", "onfail"]

def link_directives (steps : List Step) (step : Step) :
    List String → Deps → Except Err Deps
  | [], acc => Except.ok acc
  | d :: rest, acc =>
    match process_requisite_directive steps step d acc with
    | Except.ok acc' => link_directives steps step rest acc'
    | Except.error e => Except.error e

/-- Dependency lists of one step after the requisite pass. -/
def link_step (steps : List Step) (step : Step) : Except Err Deps :=
  link_directives steps step directives ([], [])

/-- A step together with its resolved dependency edges. -/
abbrev LinkedStep := Step × List Nat × List Nat

/-- The requisite-linking pass of `parse_state_steps`
(`for step in result: for directive in [...]: ...`): every step of the
flat plan gets its dependency lists filled in; the first failed lookup
aborts the whole pass. -/
def link_steps_aux (steps : List Step) : List Step → Except Err (List LinkedStep)
  | [] => Except.ok []
  | s :: rest =>
    match link_step steps s with
    | Except.error e => Except.error e
    | Except.ok deps =>
      match link_steps_aux steps rest with
      | Except.error e => Except.error e
      | Except.ok tail => Except.ok ((s, deps.1, deps.2) :: tail)

def link_steps (steps : List Step) : Except Err (List LinkedStep) :=
  link_steps_aux steps steps

/-! ### Graph builder (`SLSParser._traverse_state`)

External collaborators enter through `Env`: the filesystem queries of
`_state_name_is_dir` / `os.path.exists` and the renderer output for each
resolved path.  The mutable world is `TState`: the cache contents and
the number of renderer invocations. -/

structure Env where
  is_dir : String → Bool
  path_exists : String → Bool
  render : String → List (String × Value)

/-- A serialized cache entry: either a well-formed pickled plan or a
corrupt blob on which `pickle.load` raises. -/
inductive CacheBlob where
  | good : List Step → CacheBlob
  | corrupt : CacheBlob

/-- `pickle.load` on a cache file. -/
def pickle_load : CacheBlob → Except Err (List Step)
  | CacheBlob.good plan => Except.ok plan
  | CacheBlob.corrupt => Except.error Err.unpicklingError

/-- Mutable world state of a traversal: the cache store (keyed by
`(stages_only, state_name)`, exactly the parameters in the cache file
name) and the renderer invocation count. -/
structure TState where
  cache : List ((Bool × String) × CacheBlob)
  renders : Nat

/-- Embedding of `SLSParser._state_file_path`: directory-like states map
to their `init.sls`, leaves to `<name>.sls`; a missing file raises
`OrchestrationNotFound`. -/
def state_file_path (env : Env) (state_name : String) : Except Err String :=
  let path :=
    if env.is_dir state_name then "/srv/salt/" ++ replaceDots state_name ++ "/init.sls"
    else "/srv/salt/" ++ replaceDots state_name ++ ".sls"
  if env.path_exists path then Except.ok path
  else Except.error (Err.orchestrationNotFound state_name)

/-- The include list of an `include:` declaration body: Python iterates
the body and passes each element to `_gen_state_name_from_include`;
non-iterable bodies or non-string elements raise `TypeError`. -/
def as_include_list (v : Value) : Except Err (List String) :=
  match py_iter v with
  | none => Except.error Err.typeError
  | some l =>
    match l.mapM (fun x => match x with | Value.str s => some s | _ => none) with
    | some ss => Except.ok ss
    | none => Except.error Err.typeError

/-- The pending positions of the `_traverse_state` recursion: a whole
state, the remaining `state_dict.items()` loop of a state, the remaining
`include` references of one declaration, and the remaining
`(fun, args)` pairs of one step declaration. -/
inductive Task where
  | state : String → Task
  | items : String → List (String × Value) → Task
  | includes : String → List String → Task
  | funs : String → String → List (String × Value) → Task

/-- Embedding of `SLSParser._traverse_state` (together with its three
nested loops), as a fuel-indexed interpreter.  `so` is `stages_only`,
`cb` is the `cache` flag; the fuel only bounds recursion depth (Python
recursion is unbounded) and every recursive call consumes one unit. -/
def traverse (env : Env) (so cb : Bool) : Nat → Task → TState → Except Err (List Step × TState)
  | 0, _, _ => Except.error Err.fuelExhausted
  | f + 1, Task.state state_name, st =>
    -- `if stages_only and not state_name.startswith('ceph.stage'): return []`
    if so && !pyStartsWith state_name "ceph.stage" then Except.ok ([], st)
    else
      -- `if cache: if os.path.exists(cache_file_path): return pickle.load(...)`
      match (if cb then pyDictGet st.cache (so, state_name) else none) with
      | some blob =>
        (match pickle_load blob with
         | Except.ok plan => Except.ok (plan, st)
         | Except.error e => Except.error e)
      | none =>
        match state_file_path env state_name with
        | Except.error e => Except.error e
        | Except.ok path =>
          -- `state_dict = SLSRenderer.render(path)`
          match traverse env so cb f (Task.items state_name (env.render path))
              { st with renders := st.renders + 1 } with
          | Except.error e => Except.error e
          | Except.ok (result, st1) =>
            -- `if cache: pickle.dump(result, ...)`
            if cb then
              Except.ok (result,
                { st1 with cache := pyDictSet st1.cache (so, state_name) (CacheBlob.good result) })
            else Except.ok (result, st1)
  | _ + 1, Task.items _ [], st => Except.ok ([], st)
  | f + 1, Task.items state_name ((key, body) :: rest), st =>
    -- keys of a Python dict are unique, so the loop value `steps` equals
    -- `state_dict['include']` when `key == 'include'`
    if key = "include" then
      match as_include_list body with
      | Except.error e => Except.error e
      | Except.ok incs =>
        match traverse env so cb f (Task.includes state_name incs) st with
        | Except.error e => Except.error e
        | Except.ok (sub, st1) =>
          match traverse env so cb f (Task.items state_name rest) st1 with
          | Except.error e => Except.error e
          | Except.ok (tail, st2) => Except.ok (sub ++ tail, st2)
    else
      match Value.asDict body with
      | some funs =>
        match traverse env so cb f (Task.funs state_name key funs) st with
        | Except.error e => Except.error e
        | Except.ok (sub, st1) =>
          match traverse env so cb f (Task.items state_name rest) st1 with
          | Except.error e => Except.error e
          | Except.ok (tail, st2) => Except.ok (sub ++ tail, st2)
      -- `isinstance(steps, dict)` fails: the declaration is skipped
      | none => traverse env so cb f (Task.items state_name rest) st
  | _ + 1, Task.includes _ [], st => Except.ok ([], st)
  | f + 1, Task.includes state_name (inc :: rest), st =>
    match traverse env so cb f
        (Task.state (gen_state_name_from_include env.is_dir state_name inc)) st with
    | Except.error e => Except.error e
    | Except.ok (sub, st1) =>
      match traverse env so cb f (Task.includes state_name rest) st1 with
      | Except.error e => Except.error e
      | Except.ok (tail, st2) => Except.ok (sub ++ tail, st2)
  | _ + 1, Task.funs _ _ [], st => Except.ok ([], st)
  | f + 1, Task.funs state_name desc ((fn, args) :: rest), st =>
    if fn = "salt.state" then
      -- `state = SaltState(key, args); result.append(state);
      --  result.extend(SLSParser._traverse_state(state.state, ...))`
      let step : Step := { kind := StepKind.state, desc := desc, fn := "", args := args }
      match opt_str (get_arg args "sls") with
      | some sls =>
        (match traverse env so cb f (Task.state sls) st with
         | Except.error e => Except.error e
         | Except.ok (sub, st1) =>
           match traverse env so cb f (Task.funs state_name desc rest) st1 with
           | Except.error e => Except.error e
           | Except.ok (tail, st2) => Except.ok (step :: sub ++ tail, st2))
      -- Python recurses into a missing or non-string `sls` value and
      -- fails there (`None.startswith`/path errors); modelled as a
      -- `TypeError` at this point
      | none => Except.error Err.typeError
    else if fn = "salt.runner" then
      let step : Step := { kind := StepKind.runner, desc := desc, fn := extract_name args, args := args }
      match traverse env so cb f (Task.funs state_name desc rest) st with
      | Except.error e => Except.error e
      | Except.ok (tail, st1) => Except.ok (step :: tail, st1)
    else if fn = "module.run" then
      let step : Step := { kind := StepKind.module, desc := desc, fn := extract_name args, args := args }
      match traverse env so cb f (Task.funs state_name desc rest) st with
      | Except.error e => Except.error e
      | Except.ok (tail, st1) => Except.ok (step :: tail, st1)
    else
      match py_iter args with
      | none => Except.error Err.typeError
      | some l =>
        let step : Step :=
          { kind := StepKind.builtin, desc := desc, fn := fn,
            args := Value.dict (salt_built_in_args l) }
        match traverse env so cb f (Task.funs state_name desc rest) st with
        | Except.error e => Except.error e
        | Except.ok (tail, st1) => Except.ok (step :: tail, st1)

/-- Embedding of `SLSParser._traverse_state` at its entry point. -/
def traverse_state (env : Env) (fuel : Nat) (state_name : String) (stages_only cache : Bool)
    (st : TState) : Except Err (List Step × TState) :=
  traverse env stages_only cache fuel (Task.state state_name) st

/-- Embedding of `SLSParser.parse_state_steps`: traverse, then run the
requisite-linking pass over the finished flat plan. -/
def parse_state_steps (env : Env) (fuel : Nat) (state_name : String) (stages_only cache : Bool)
    (st : TState) : Except Err (List LinkedStep × TState) :=
  match traverse_state env fuel state_name stages_only cache st with
  | Except.error e => Except.error e
  | Except.ok (result, st1) =>
    match link_steps result with
    | Except.error e => Except.error e
    | Except.ok linked => Except.ok (linked, st1)

/-! ### Concrete instances used to evaluate the embedding -/

/-- A cache store with no corrupt entry (entries may be missing). -/
def cacheWF (c : List ((Bool × String) × CacheBlob)) : Prop :=
  ∀ e ∈ c, e.2 ≠ CacheBlob.corrupt

/-- A traversal outcome that surfaces no deserialization error and whose
produced cache (on success) again holds no corrupt entry. -/
def NoUnpick (r : Except Err (List Step × TState)) : Prop :=
  r ≠ Except.error Err.unpicklingError ∧
    ∀ p st', r = Except.ok (p, st') → cacheWF st'.cache

/-- A flat filesystem: nothing is a directory, every path exists. -/
def env0 : Env := { is_dir := fun _ => false, path_exists := fun _ => true, render := fun _ => [] }

/-- The empty starting world: no cache entries, no renders yet. -/
def st0 : TState := { cache := [], renders := 0 }

/-- An environment whose only stage declares step `"B"` with a
`require` on a name no step carries. -/
def envR : Env :=
  { is_dir := fun _ => false, path_exists := fun _ => true,
    render := fun _ => [("B", Value.dict [("test.nop",
      Value.list [Value.dict [("require", Value.str "missing")]])])] }

/-- The single step the `envR` stage produces. -/
def stepB : Step :=
  { kind := StepKind.builtin, desc := "B", fn := "test.nop",
    args := Value.dict [("require", Value.str "missing")] }

/-- A `module.run` step whose function name starts with `salt.`. -/
def c5Step : Step :=
  { kind := StepKind.module, desc := "A", fn := "salt.foo", args := Value.dict [] }

/-- A `module.run` step whose function name holds no `'.'`. -/
def c10Step : Step :=
  { kind := StepKind.module, desc := "A", fn := "grains", args := Value.dict [] }

/-! ## Helper lemmas -/

theorem iterDropLast_eq_take {α : Type} (k : Nat) (l : List α) :
    iterDropLast k l = l.take (l.length - k) := by
  induction k generalizing l with
  | zero => simp [iterDropLast]
  | succ k ih =>
    rw [iterDropLast, ih, List.length_dropLast, List.dropLast_eq_take, List.take_take]
    congr 1
    omega

theorem pyDictGet_set_self {κ α : Type} [DecidableEq κ] (c : List (κ × α)) (k : κ) (v : α) :
    pyDictGet (pyDictSet c k v) k = some v := by
  induction c with
  | nil => simp [pyDictSet, pyDictGet]
  | cons hd tl ih =>
    by_cases hk : hd.1 = k
    · simp [pyDictSet, pyDictGet, List.any_cons, hk]
    · rw [pyDictSet, List.any_cons]
      by_cases ht : tl.any (fun p => p.1 = k)
      · rw [if_pos (by simp [hk, ht])]
        rw [List.map_cons, pyDictGet, List.find?_cons, if_neg hk]
        simp only [decide_eq_true_eq, hk, if_false]
        have := ih
        rw [pyDictSet, if_pos ht] at this
        rw [pyDictGet] at this
        simpa using this
      · rw [if_neg (by simp [hk, ht])]
        rw [List.cons_append, pyDictGet, List.find?_cons]
        simp only [decide_eq_true_eq, hk, if_false]
        have := ih
        rw [pyDictSet, if_neg ht] at this
        rw [pyDictGet] at this
        simpa using this

theorem pyFindAux_eq_neg_one (l : List Char) (c : Char) (h : ∀ x ∈ l, x ≠ c) :
    ∀ i, pyFindAux l c i = -1 := by
  induction l with
  | nil => intro i; rfl
  | cons x xs ih =>
    intro i
    rw [pyFindAux, if_neg (h x (List.mem_cons_self x xs))]
    exact ih (fun y hy => h y (List.mem_cons_of_mem x hy)) (i + 1)

/-! ## Claims -/

/-- C1 counterexample: with a leaf parent `"ceph.stage.4"` (its source
location is not directory-like), the include `"..iscsi"` resolves to
`"ceph.iscsi"` — not `"ceph.stage.iscsi"` as the claim states. -/
theorem resolve_include_leaf_counterexample :
    gen_state_name_from_include (fun _ => false) "ceph.stage.4" "..iscsi" = "ceph.iscsi" ∧
    gen_state_name_from_include (fun _ => false) "ceph.stage.4" "..iscsi" ≠ "ceph.stage.iscsi" := by
  exact ⟨rfl, by decide⟩

/-- C1 (amended): for a parent stage identifier `"ceph.stage.4"` whose
backing source location is directory-like (composite) and the include
reference `"..iscsi"`, include resolution returns `"ceph.stage.iscsi"`. -/
theorem resolve_include_stage4_composite (is_dir : String → Bool)
    (h : is_dir "ceph.stage.4" = true) :
    gen_state_name_from_include is_dir "ceph.stage.4" "..iscsi" = "ceph.stage.iscsi" := by
  simp only [gen_state_name_from_include, h]
  decide

/-- C1 witness: the amended claim at the concrete composite filesystem. -/
theorem resolve_include_stage4_composite_witness :
    gen_state_name_from_include (fun _ => true) "ceph.stage.4" "..iscsi" = "ceph.stage.iscsi" :=
  resolve_include_stage4_composite (fun _ => true) rfl

/-- C7 counterexample: with a composite parent `"ceph.stage"` (its
source location is directory-like), the include `".openattic"` resolves
to `"ceph.stage.openattic"` — not `"ceph.openattic"` as the claim
states. -/
theorem resolve_include_composite_counterexample :
    gen_state_name_from_include (fun _ => true) "ceph.stage" ".openattic" = "ceph.stage.openattic" ∧
    gen_state_name_from_include (fun _ => true) "ceph.stage" ".openattic" ≠ "ceph.openattic" := by
  exact ⟨rfl, by decide⟩

/-- C7 (amended): for a parent stage identifier `"ceph.stage"` whose
backing source location is not directory-like (a leaf) and the include
reference `".openattic"`, include resolution returns
`"ceph.openattic"`. -/
theorem resolve_include_stage_leaf (is_dir : String → Bool)
    (h : is_dir "ceph.stage" = false) :
    gen_state_name_from_include is_dir "ceph.stage" ".openattic" = "ceph.openattic" := by
  simp only [gen_state_name_from_include, h]
  decide

/-- C7 witness: the amended claim at the concrete leaf filesystem. -/
theorem resolve_include_stage_leaf_witness :
    gen_state_name_from_include (fun _ => false) "ceph.stage" ".openattic" = "ceph.openattic" :=
  resolve_include_stage_leaf (fun _ => false) rfl

/-- C2: for every parent identifier and include reference, the code's
include resolution agrees with the spec's description — count the
leading dots as `d`, strip them, increment `d` when the parent is not
composite, remove the trailing `(d-1)` dotted segments of the parent
when `d > 1`, and concatenate with `"."` and the remaining segment. -/
theorem resolve_include_refines_spec (is_dir : String → Bool) (parent ref : String) :
    gen_state_name_from_include is_dir parent ref = resolve_include_spec is_dir parent ref := by
  simp only [gen_state_name_from_include, resolve_include_spec, iterDropLast_eq_take]

/-- C8: `SaltBuiltIn` argument normalization — the raw list
`[{"name": "foo"}, "bar"]` normalizes to
`{"name": "foo", "nokey": "bar"}`; in general a trailing single-pair
mapping element is merged in directly (overwriting any earlier binding
of its key) and a trailing scalar element is stored under `"nokey"`. -/
theorem salt_built_in_normalization :
    salt_built_in_args [Value.dict [("name", Value.str "foo")], Value.str "bar"]
      = [("name", Value.str "foo"), ("nokey", Value.str "bar")] ∧
    (∀ (args : List Value) (k : String) (v : Value),
      pyDictGet (salt_built_in_args (args ++ [Value.dict [(k, v)]])) k = some v) ∧
    (∀ (args : List Value) (v : Value), v.isDict = false →
      pyDictGet (salt_built_in_args (args ++ [v])) "nokey" = some v) := by
  refine ⟨rfl, ?_, ?_⟩
  · intro args k v
    rw [salt_built_in_args, List.foldl_append]
    exact pyDictGet_set_self _ k v
  · intro args v hv
    rw [salt_built_in_args, List.foldl_append]
    cases v with
    | dict kvs => simp [Value.isDict] at hv
    | null => exact pyDictGet_set_self _ _ _
    | bool b => exact pyDictGet_set_self _ _ _
    | int n => exact pyDictGet_set_self _ _ _
    | str s => exact pyDictGet_set_self _ _ _
    | list xs => exact pyDictGet_set_self _ _ _

/-- C8 witness: a trailing scalar lands under `"nokey"`. -/
theorem salt_built_in_normalization_witness :
    pyDictGet (salt_built_in_args ([] ++ [Value.str "bar"])) "nokey" = some (Value.str "bar") :=
  salt_built_in_normalization.2.2 [] (Value.str "bar") rfl

/-- C5 counterexample: under the module hint `"salt"`, the search also
matches a `module.run` step whose function name starts with `salt.` —
so RunnerCall/StateApply steps are not the only eligible matches. -/
theorem search_step_salt_hint_counterexample :
    search_step [c5Step] (some "salt") (Value.str "A") = some 0 ∧
    c5Step.kind = StepKind.module := by
  exact ⟨rfl, rfl⟩

/-- C5 (amended): for a present, non-empty module hint `m`, a candidate
matches iff it passes the module filter — RunnerCall and StateApply pass
exactly when `m = "salt"`, every other kind passes exactly when `m`
equals the candidate's `fun` up to its first `.` (Python
`fun[:fun.find('.')]`) — and the name condition holds.  (In particular
RunnerCall/StateApply never match a hint other than `"salt"`, but a
ModuleCall/BuiltinCommand whose `fun` starts with `salt.` also matches
the hint `"salt"`; an empty hint behaves like an absent one.) -/
theorem search_step_module_hint_characterization (step : Step) (m : String) (sid : Value)
    (hm : m ≠ "") :
    step_matches step (some m) sid =
      ((if step.kind = StepKind.runner ∨ step.kind = StepKind.state then decide (m = "salt")
        else decide (m = step_mod step.fn)) && name_matches step sid) := by
  cases hk : step.kind <;> simp [step_matches, hk, hm]

/-- C5 witness: the characterization at the concrete `module.run` step
with `fun = "salt.foo"` and hint `"salt"`. -/
theorem search_step_module_hint_characterization_witness :
    step_matches c5Step (some "salt") (Value.str "A") =
      ((if c5Step.kind = StepKind.runner ∨ c5Step.kind = StepKind.state
          then decide ("salt" = "salt")
        else decide ("salt" = step_mod c5Step.fn)) && name_matches c5Step (Value.str "A")) :=
  search_step_module_hint_characterization c5Step "salt" (Value.str "A") (by decide)

/-- C10: for a present non-`"salt"` module hint against a ModuleCall or
BuiltinCommand candidate whose `fun` holds no `'.'`, the compared module
prefix is `fun` with its final character removed (`fun[:fun.find('.')]`
with `find` returning `-1`), so the candidate matches exactly when the
hint equals `fun` minus its last character (and the name condition
holds). -/
theorem step_mod_no_dot_drops_last_char (step : Step) (m : String) (sid : Value)
    (hm : m ≠ "") (_hms : m ≠ "salt")
    (hk : step.kind = StepKind.module ∨ step.kind = StepKind.builtin)
    (hd : ∀ c ∈ step.fn.toList, c ≠ '.') :
    step_mod step.fn = pyTake step.fn (pyLen step.fn - 1) ∧
    step_matches step (some m) sid
      = (decide (m = pyTake step.fn (pyLen step.fn - 1)) && name_matches step sid) := by
  have hfind : pyFind step.fn '.' = -1 := pyFindAux_eq_neg_one _ _ hd 0
  have hmod : step_mod step.fn = pyTake step.fn (pyLen step.fn - 1) := by
    rw [step_mod, pySliceTo, hfind, if_neg (by norm_num)]
    congr 1
    omega
  refine ⟨hmod, ?_⟩
  rcases hk with hk | hk <;> simp [step_matches, hk, hm, hmod]

/-- C10 witness: `fun = "grains"` compares as `"grain"`. -/
theorem step_mod_no_dot_drops_last_char_witness :
    step_mod c10Step.fn = pyTake c10Step.fn (pyLen c10Step.fn - 1) ∧
    step_matches c10Step (some "grain") (Value.str "A")
      = (decide ("grain" = pyTake c10Step.fn (pyLen c10Step.fn - 1))
          && name_matches c10Step (Value.str "A")) :=
  step_mod_no_dot_drops_last_char c10Step "grain" (Value.str "A")
    (by decide) (by decide) (Or.inl rfl) (by decide)

/-- C9: a declaration whose key is not `"include"` and whose body is not
a mapping contributes nothing to the expansion — the items loop behaves
exactly as if the declaration were absent, appending no step and raising
no error of its own. -/
theorem non_mapping_body_skipped (env : Env) (so cb : Bool) (f : Nat)
    (state_name key : String) (body : Value) (rest : List (String × Value)) (st : TState)
    (h1 : key ≠ "include") (h2 : body.isDict = false) :
    traverse env so cb (f + 1) (Task.items state_name ((key, body) :: rest)) st
      = traverse env so cb f (Task.items state_name rest) st := by
  have hd : Value.asDict body = none := by
    cases body with
    | dict d => simp [Value.isDict] at h2
    | null => rfl
    | bool b => rfl
    | int n => rfl
    | str s => rfl
    | list xs => rfl
  rw [traverse, if_neg h1, hd]

/-- C9 witness: a declaration with a scalar body is skipped. -/
theorem non_mapping_body_skipped_witness :
    traverse env0 true true 2 (Task.items "ceph.stage.9" [("B", Value.str "x")]) st0
      = traverse env0 true true 1 (Task.items "ceph.stage.9" []) st0 :=
  non_mapping_body_skipped env0 true true 1 "ceph.stage.9" "B" (Value.str "x") [] st0
    (by decide) rfl

/-! Lemmas for the requisite-linking pass: every failure of the pass is
the `assert req_step` failure, and an unresolvable pair anywhere in a
step's requisites forces it. -/

theorem link_pairs_shape (steps : List Step) (d : String)
    (pairs : List (Option String × Value)) :
    ∀ acc, (∃ r, link_pairs steps d acc pairs = Except.ok r) ∨
      link_pairs steps d acc pairs = Except.error Err.requisiteResolutionFailure := by
  induction pairs with
  | nil => intro acc; exact Or.inl ⟨acc, rfl⟩
  | cons p rest ih =>
    intro acc
    obtain ⟨mod, sid⟩ := p
    rw [link_pairs]
    cases hs : search_step steps mod sid with
    | some i => exact ih _
    | none => exact Or.inr rfl

theorem link_pairs_bad (steps : List Step) (d : String) (mod : Option String) (sid : Value)
    (hnone : search_step steps mod sid = none) :
    ∀ (pairs : List (Option String × Value)), (mod, sid) ∈ pairs →
      ∀ acc, link_pairs steps d acc pairs = Except.error Err.requisiteResolutionFailure := by
  intro pairs
  induction pairs with
  | nil => intro hmem; exact absurd hmem (List.not_mem_nil _)
  | cons p rest ih =>
    intro hmem acc
    obtain ⟨mod', sid'⟩ := p
    rw [link_pairs]
    cases hs : search_step steps mod' sid' with
    | none => rfl
    | some i =>
      have hrest : (mod, sid) ∈ rest := by
        rcases List.mem_cons.mp hmem with heq | h
        · cases heq; rw [hnone] at hs; cases hs
        · exact h
      exact ih hrest _

theorem link_entries_shape (steps : List Step) (d : String) (entries : List Value) :
    ∀ acc, (∃ r, link_entries steps d acc entries = Except.ok r) ∨
      link_entries steps d acc entries = Except.error Err.requisiteResolutionFailure := by
  induction entries with
  | nil => intro acc; exact Or.inl ⟨acc, rfl⟩
  | cons entry rest ih =>
    intro acc
    rw [link_entries]
    cases hlp : link_pairs steps d acc (entry_pairs entry) with
    | ok acc' => exact ih _
    | error e =>
      rcases link_pairs_shape steps d (entry_pairs entry) acc with ⟨r, hr⟩ | herr
      · rw [hlp] at hr; cases hr
      · rw [hlp] at herr
        exact Or.inr (by rw [herr])

theorem link_entries_bad (steps : List Step) (d : String) (entry : Value)
    (mod : Option String) (sid : Value)
    (hpair : (mod, sid) ∈ entry_pairs entry)
    (hnone : search_step steps mod sid = none) :
    ∀ (entries : List Value), entry ∈ entries →
      ∀ acc, link_entries steps d acc entries = Except.error Err.requisiteResolutionFailure := by
  intro entries
  induction entries with
  | nil => intro hmem; exact absurd hmem (List.not_mem_nil _)
  | cons e rest ih =>
    intro hmem acc
    rw [link_entries]
    rcases List.mem_cons.mp hmem with heq | hmem'
    · subst heq
      rw [link_pairs_bad steps d mod sid hnone (entry_pairs entry) hpair acc]
    · cases hlp : link_pairs steps d acc (entry_pairs e) with
      | ok acc' => exact ih hmem' _
      | error err =>
        rcases link_pairs_shape steps d (entry_pairs e) acc with ⟨r, hr⟩ | herr
        · rw [hlp] at hr; cases hr
        · rw [hlp] at herr; rw [herr]

theorem process_requisite_directive_shape (steps : List Step) (step : Step) (d : String)
    (acc : Deps) :
    (∃ r, process_requisite_directive steps step d acc = Except.ok r) ∨
      process_requisite_directive steps step d acc
        = Except.error Err.requisiteResolutionFailure := by
  rw [process_requisite_directive]
  split
  · exact Or.inl ⟨acc, rfl⟩
  · split
    · exact link_entries_shape steps d (pyReqList _) acc
    · exact Or.inl ⟨acc, rfl⟩

theorem process_requisite_directive_bad (steps : List Step) (step : Step) (d : String)
    (req : Value) (hreq : get_arg step.args d = some req) (ht : pyTruthy req = true)
    (entry : Value) (hentry : entry ∈ pyReqList req)
    (mod : Option String) (sid : Value) (hpair : (mod, sid) ∈ entry_pairs entry)
    (hnone : search_step steps mod sid = none) (acc : Deps) :
    process_requisite_directive steps step d acc
      = Except.error Err.requisiteResolutionFailure := by
  rw [process_requisite_directive, hreq]
  show (if pyTruthy req = true then link_entries steps d acc (pyReqList req) else Except.ok acc)
    = Except.error Err.requisiteResolutionFailure
  rw [if_pos ht]
  exact link_entries_bad steps d entry mod sid hpair hnone (pyReqList req) hentry acc

theorem link_directives_shape (steps : List Step) (step : Step) (ds : List String) :
    ∀ acc, (∃ r, link_directives steps step ds acc = Except.ok r) ∨
      link_directives steps step ds acc = Except.error Err.requisiteResolutionFailure := by
  induction ds with
  | nil => intro acc; exact Or.inl ⟨acc, rfl⟩
  | cons d rest ih =>
    intro acc
    rw [link_directives]
    cases hp : process_requisite_directive steps step d acc with
    | ok acc' => exact ih _
    | error e =>
      rcases process_requisite_directive_shape steps step d acc with ⟨r, hr⟩ | herr
      · rw [hp] at hr; cases hr
      · rw [hp] at herr; exact Or.inr (by rw [herr])

theorem link_directives_bad (steps : List Step) (step : Step) (d : String)
    (req : Value) (hreq : get_arg step.args d = some req) (ht : pyTruthy req = true)
    (entry : Value) (hentry : entry ∈ pyReqList req)
    (mod : Option String) (sid : Value) (hpair : (mod, sid) ∈ entry_pairs entry)
    (hnone : search_step steps mod sid = none) :
    ∀ (ds : List String), d ∈ ds →
      ∀ acc, link_directives steps step ds acc
        = Except.error Err.requisiteResolutionFailure := by
  intro ds
  induction ds with
  | nil => intro hmem; exact absurd hmem (List.not_mem_nil _)
  | cons d' rest ih =>
    intro hmem acc
    rw [link_directives]
    rcases List.mem_cons.mp hmem with heq | hmem'
    · subst heq
      rw [process_requisite_directive_bad steps step d req hreq ht entry hentry mod sid
        hpair hnone acc]
    · cases hp : process_requisite_directive steps step d' acc with
      | ok acc' => exact ih hmem' _
      | error e =>
        rcases process_requisite_directive_shape steps step d' acc with ⟨r, hr⟩ | herr
        · rw [hp] at hr; cases hr
        · rw [hp] at herr; rw [herr]

theorem link_step_shape (steps : List Step) (step : Step) :
    (∃ r, link_step steps step = Except.ok r) ∨
      link_step steps step = Except.error Err.requisiteResolutionFailure :=
  link_directives_shape steps step directives ([], [])

theorem link_steps_aux_bad (steps : List Step) (step : Step)
    (d : String) (hd : d ∈ directives)
    (req : Value) (hreq : get_arg step.args d = some req) (ht : pyTruthy req = true)
    (entry : Value) (hentry : entry ∈ pyReqList req)
    (mod : Option String) (sid : Value) (hpair : (mod, sid) ∈ entry_pairs entry)
    (hnone : search_step steps mod sid = none) :
    ∀ (l : List Step), step ∈ l →
      link_steps_aux steps l = Except.error Err.requisiteResolutionFailure := by
  intro l
  induction l with
  | nil => intro hmem; exact absurd hmem (List.not_mem_nil _)
  | cons s rest ih =>
    intro hmem
    rw [link_steps_aux]
    rcases List.mem_cons.mp hmem with heq | hmem'
    · subst heq
      rw [show link_step steps step = Except.error Err.requisiteResolutionFailure from
        link_directives_bad steps step d req hreq ht entry hentry mod sid hpair hnone
          directives hd ([], [])]
    · cases hls : link_step steps s with
      | error e =>
        rcases link_step_shape steps s with ⟨r, hr⟩ | herr
        · rw [hls] at hr; cases hr
        · rw [hls] at herr; rw [herr]
      | ok deps =>
        rw [ih hmem']

/-- C3: when the flat plan produced by traversal contains a step one of
whose requisite directives (`require`, `watch`, `onchanges`, `onfail`)
names a `(module hint, target)` pair matched by no step of the plan, the
linking pass of `parse_state_steps` fails with the requisite-resolution
failure (Python: `assert req_step`) and no (partially linked) plan is
returned. -/
theorem unresolved_requisite_fatal (env : Env) (fuel : Nat) (state_name : String)
    (so cb : Bool) (st : TState) (steps : List Step) (st1 : TState)
    (htrav : traverse_state env fuel state_name so cb st = Except.ok (steps, st1))
    (step : Step) (h1 : step ∈ steps)
    (d : String) (h2 : d ∈ directives)
    (req : Value) (h3 : get_arg step.args d = some req) (h4 : pyTruthy req = true)
    (entry : Value) (h5 : entry ∈ pyReqList req)
    (mod : Option String) (sid : Value) (h6 : (mod, sid) ∈ entry_pairs entry)
    (h7 : search_step steps mod sid = none) :
    parse_state_steps env fuel state_name so cb st
      = Except.error Err.requisiteResolutionFailure := by
  have hbad : link_steps steps = Except.error Err.requisiteResolutionFailure :=
    link_steps_aux_bad steps step d h2 req h3 h4 entry h5 mod sid h6 h7 steps h1
  simp only [parse_state_steps, htrav, hbad]

theorem pyDictGet_mem {κ α : Type} [DecidableEq κ] (c : List (κ × α)) (k : κ) (v : α)
    (h : pyDictGet c k = some v) : ∃ e ∈ c, e.2 = v := by
  rw [pyDictGet] at h
  cases hf : c.find? (fun p => p.1 = k) with
  | none => rw [hf] at h; cases h
  | some e =>
    rw [hf] at h
    exact ⟨e, List.mem_of_find?_eq_some hf, by injection h⟩

/-- After a successful cached traversal of a state, running the very
same traversal again from the resulting world returns the same plan and
leaves the world untouched: the first run either hit the cache already
or wrote back exactly the plan it returned. -/
theorem traverse_state_idem (env : Env) (fuel : Nat) (X : String) (st : TState)
    (res : List Step) (st' : TState)
    (h : traverse env true true fuel (Task.state X) st = Except.ok (res, st')) :
    traverse env true true fuel (Task.state X) st' = Except.ok (res, st') := by
  match fuel with
  | 0 => rw [traverse] at h; cases h
  | f + 1 =>
    rw [traverse] at h ⊢
    split at h
    · next hf =>
      rw [if_pos hf]
      simp only [Except.ok.injEq, Prod.mk.injEq] at h
      obtain ⟨h1, h2⟩ := h
      subst h1; subst h2
      rfl
    · next hf =>
      rw [if_neg hf]
      split at h
      · next blob heq =>
        simp only [if_true] at heq
        cases blob with
        | corrupt => simp [pickle_load] at h
        | good plan =>
          simp only [pickle_load, Except.ok.injEq, Prod.mk.injEq] at h
          obtain ⟨h1, h2⟩ := h
          subst h1; subst h2
          rw [show (if true = true then pyDictGet st.cache (true, X) else none)
              = some (CacheBlob.good plan) from by simpa using heq]
          rfl
      · next heq =>
        split at h
        · next e hp => cases h
        · next path hp =>
          split at h
          · next e hb => cases h
          · next result stB hb =>
            simp only [if_true, Except.ok.injEq, Prod.mk.injEq] at h
            obtain ⟨h1, h2⟩ := h
            subst h1; subst h2
            rw [show (if true = true then
                pyDictGet ({ stB with
                  cache := pyDictSet stB.cache (true, X) (CacheBlob.good result) } : TState).cache
                  (true, X)
                else none) = some (CacheBlob.good result) from by simp [pyDictGet_set_self]]
            rfl

/-- C4: when a first `parse_state_steps` call with `stages_only` and
`cache` both enabled succeeds, an identical second call from the
resulting world returns the very same (structurally equal) linked plan,
and performs no further renderer invocation. -/
theorem parse_state_steps_cache_idempotent (env : Env) (fuel : Nat) (X : String)
    (st : TState) (plan : List LinkedStep) (st' : TState)
    (h : parse_state_steps env fuel X true true st = Except.ok (plan, st')) :
    ∃ st2, parse_state_steps env fuel X true true st' = Except.ok (plan, st2) ∧
      st2.renders = st'.renders := by
  rw [parse_state_steps] at h
  split at h
  · cases h
  · next result st1 htrav =>
    split at h
    · cases h
    · next linked hlink =>
      simp only [Except.ok.injEq, Prod.mk.injEq] at h
      obtain ⟨h1, h2⟩ := h
      subst h1; subst h2
      refine ⟨st1, ?_, rfl⟩
      rw [traverse_state] at htrav
      have hidem := traverse_state_idem env fuel X st result st1 htrav
      rw [parse_state_steps, traverse_state, hidem]
      show (match link_steps result with
            | Except.error e => Except.error e
            | Except.ok linked => Except.ok (linked, st1)) = Except.ok (linked, st1)
      rw [hlink]

/-- C4 witness: a successful first call on the empty world, replayed
from its resulting world. -/
theorem parse_state_steps_cache_idempotent_witness :
    ∃ st2, parse_state_steps env0 2 "ceph.stage.9" true true
        { cache := [((true, "ceph.stage.9"), CacheBlob.good [])], renders := 1 }
      = Except.ok ([], st2) ∧ st2.renders = 1 :=
  parse_state_steps_cache_idempotent env0 2 "ceph.stage.9" st0 []
    { cache := [((true, "ceph.stage.9"), CacheBlob.good [])], renders := 1 } rfl

/-- C3 witness: a stage whose only step requires the name `"missing"`,
which no step carries. -/
theorem unresolved_requisite_fatal_witness :
    parse_state_steps envR 5 "ceph.stage.9" true true st0
      = Except.error Err.requisiteResolutionFailure :=
  unresolved_requisite_fatal envR 5 "ceph.stage.9" true true st0 [stepB]
    { cache := [((true, "ceph.stage.9"), CacheBlob.good [stepB])], renders := 1 } rfl
    stepB (List.mem_singleton.mpr rfl)
    "require" (by decide)
    (Value.str "missing") rfl rfl
    (Value.str "missing") (List.mem_singleton.mpr rfl)
    none (Value.str "missing") (List.mem_singleton.mpr rfl)
    rfl

theorem NoUnpick_ok (p : List Step) (st : TState) (h : cacheWF st.cache) :
    NoUnpick (Except.ok (p, st)) := by
  constructor
  · intro hcon; cases hcon
  · intro q st' hq
    simp only [Except.ok.injEq, Prod.mk.injEq] at hq
    obtain ⟨_, h2⟩ := hq
    rw [← h2]
    exact h

theorem NoUnpick_error (e : Err) (he : e ≠ Err.unpicklingError) : NoUnpick (Except.error e) := by
  constructor
  · intro hcon; injection hcon with h'; exact he h'
  · intro q st' hq; cases hq

theorem as_include_list_error (v : Value) (e : Err) (h : as_include_list v = Except.error e) :
    e = Err.typeError := by
  rw [as_include_list] at h
  split at h
  · injection h with h'; exact h'.symm
  · split at h
    · cases h
    · injection h with h'; exact h'.symm

theorem state_file_path_error (env : Env) (name : String) (e : Err)
    (h : state_file_path env name = Except.error e) : e = Err.orchestrationNotFound name := by
  rw [state_file_path] at h
  split at h <;> split at h <;> (cases h <;> rfl)

theorem pyDictSet_mem {κ α : Type} [DecidableEq κ] (c : List (κ × α)) (k : κ) (v : α) :
    ∀ e ∈ pyDictSet c k v, e ∈ c ∨ e = (k, v) := by
  intro e he
  rw [pyDictSet] at he
  split at he
  · obtain ⟨p, hp, hpe⟩ := List.mem_map.mp he
    by_cases hpk : p.1 = k
    · right; rw [← hpe, if_pos hpk]
    · left; rw [← hpe, if_neg hpk]; exact hp
  · rcases List.mem_append.mp he with h | h
    · left; exact h
    · right; simpa using h

theorem cacheWF_set_good (c : List ((Bool × String) × CacheBlob)) (k : Bool × String)
    (p : List Step) (h : cacheWF c) : cacheWF (pyDictSet c k (CacheBlob.good p)) := by
  intro e he
  rcases pyDictSet_mem c k (CacheBlob.good p) e he with h1 | h1
  · exact h e h1
  · rw [h1]; intro hcon; cases hcon

theorem traverse_NoUnpick (env : Env) (so cb : Bool) :
    ∀ (fuel : Nat) (t : Task) (st : TState), cacheWF st.cache →
      NoUnpick (traverse env so cb fuel t st) := by
  intro fuel
  induction fuel with
  | zero =>
    intro t st hwf
    rw [traverse]
    exact NoUnpick_error _ (by intro hcon; cases hcon)
  | succ f ih =>
    intro t st hwf
    cases t with
    | state name =>
      rw [traverse]
      split
      · exact NoUnpick_ok _ _ hwf
      · split
        · next blob hcb =>
          have hblob : blob ≠ CacheBlob.corrupt := by
            cases cbv : cb with
            | false => rw [cbv] at hcb; simp at hcb
            | true =>
              rw [cbv] at hcb
              simp only [if_true] at hcb
              obtain ⟨p, hpm, hp2⟩ := pyDictGet_mem _ _ _ hcb
              rw [← hp2]
              exact hwf p hpm
          cases blob with
          | corrupt => exact absurd rfl hblob
          | good plan => exact NoUnpick_ok _ _ hwf
        · split
          · next e hp =>
            exact NoUnpick_error e
              (by rw [state_file_path_error env name e hp]; intro hcon; cases hcon)
          · next path hp =>
            split
            · next e hb =>
              have h1 := ih (Task.items name (env.render path))
                { st with renders := st.renders + 1 } hwf
              rw [hb] at h1
              exact NoUnpick_error e (fun he => h1.1 (by rw [he]))
            · next result st1 hb =>
              have h1 := ih (Task.items name (env.render path))
                { st with renders := st.renders + 1 } hwf
              rw [hb] at h1
              have hwf1 := h1.2 result st1 rfl
              cases cb with
              | true => exact NoUnpick_ok _ _ (cacheWF_set_good _ _ _ hwf1)
              | false => exact NoUnpick_ok _ _ hwf1
    | items name its =>
      cases its with
      | nil => rw [traverse]; exact NoUnpick_ok _ _ hwf
      | cons kb rest =>
        obtain ⟨key, body⟩ := kb
        rw [traverse]
        split
        · split
          · next e hai =>
            exact NoUnpick_error e
              (by rw [as_include_list_error body e hai]; intro hcon; cases hcon)
          · next incs hai =>
            split
            · next e hb1 =>
              have h1 := ih (Task.includes name incs) st hwf
              rw [hb1] at h1
              exact NoUnpick_error e (fun he => h1.1 (by rw [he]))
            · next sub st1 hb1 =>
              have h1 := ih (Task.includes name incs) st hwf
              rw [hb1] at h1
              have hwf1 := h1.2 sub st1 rfl
              split
              · next e hb2 =>
                have h2 := ih (Task.items name rest) st1 hwf1
                rw [hb2] at h2
                exact NoUnpick_error e (fun he => h2.1 (by rw [he]))
              · next tail st2 hb2 =>
                have h2 := ih (Task.items name rest) st1 hwf1
                rw [hb2] at h2
                exact NoUnpick_ok _ _ (h2.2 tail st2 rfl)
        · split
          · next funs hd =>
            split
            · next e hb1 =>
              have h1 := ih (Task.funs name key funs) st hwf
              rw [hb1] at h1
              exact NoUnpick_error e (fun he => h1.1 (by rw [he]))
            · next sub st1 hb1 =>
              have h1 := ih (Task.funs name key funs) st hwf
              rw [hb1] at h1
              have hwf1 := h1.2 sub st1 rfl
              split
              · next e hb2 =>
                have h2 := ih (Task.items name rest) st1 hwf1
                rw [hb2] at h2
                exact NoUnpick_error e (fun he => h2.1 (by rw [he]))
              · next tail st2 hb2 =>
                have h2 := ih (Task.items name rest) st1 hwf1
                rw [hb2] at h2
                exact NoUnpick_ok _ _ (h2.2 tail st2 rfl)
          · exact ih (Task.items name rest) st hwf
    | includes name incs =>
      cases incs with
      | nil => rw [traverse]; exact NoUnpick_ok _ _ hwf
      | cons inc rest =>
        rw [traverse]
        split
        · next e hb1 =>
          have h1 := ih (Task.state (gen_state_name_from_include env.is_dir name inc)) st hwf
          rw [hb1] at h1
          exact NoUnpick_error e (fun he => h1.1 (by rw [he]))
        · next sub st1 hb1 =>
          have h1 := ih (Task.state (gen_state_name_from_include env.is_dir name inc)) st hwf
          rw [hb1] at h1
          have hwf1 := h1.2 sub st1 rfl
          split
          · next e hb2 =>
            have h2 := ih (Task.includes name rest) st1 hwf1
            rw [hb2] at h2
            exact NoUnpick_error e (fun he => h2.1 (by rw [he]))
          · next tail st2 hb2 =>
            have h2 := ih (Task.includes name rest) st1 hwf1
            rw [hb2] at h2
            exact NoUnpick_ok _ _ (h2.2 tail st2 rfl)
    | funs name desc fs =>
      cases fs with
      | nil => rw [traverse]; exact NoUnpick_ok _ _ hwf
      | cons fa rest =>
        obtain ⟨fn, args⟩ := fa
        rw [traverse]
        split
        · dsimp only
          split
          · next sls hg =>
            split
            · next e hb1 =>
              have h1 := ih (Task.state sls) st hwf
              rw [hb1] at h1
              exact NoUnpick_error e (fun he => h1.1 (by rw [he]))
            · next sub st1 hb1 =>
              have h1 := ih (Task.state sls) st hwf
              rw [hb1] at h1
              have hwf1 := h1.2 sub st1 rfl
              split
              · next e hb2 =>
                have h2 := ih (Task.funs name desc rest) st1 hwf1
                rw [hb2] at h2
                exact NoUnpick_error e (fun he => h2.1 (by rw [he]))
              · next tail st2 hb2 =>
                have h2 := ih (Task.funs name desc rest) st1 hwf1
                rw [hb2] at h2
                exact NoUnpick_ok _ _ (h2.2 tail st2 rfl)
          · exact NoUnpick_error _ (by intro hcon; cases hcon)
        · split
          · try dsimp only
            split
            · next e hb =>
              have h1 := ih (Task.funs name desc rest) st hwf
              rw [hb] at h1
              exact NoUnpick_error e (fun he => h1.1 (by rw [he]))
            · next tail st1 hb =>
              have h1 := ih (Task.funs name desc rest) st hwf
              rw [hb] at h1
              exact NoUnpick_ok _ _ (h1.2 tail st1 rfl)
          · split
            · try dsimp only
              split
              · next e hb =>
                have h1 := ih (Task.funs name desc rest) st hwf
                rw [hb] at h1
                exact NoUnpick_error e (fun he => h1.1 (by rw [he]))
              · next tail st1 hb =>
                have h1 := ih (Task.funs name desc rest) st hwf
                rw [hb] at h1
                exact NoUnpick_ok _ _ (h1.2 tail st1 rfl)
            · split
              · exact NoUnpick_error _ (by intro hcon; cases hcon)
              · next l hpi =>
                try dsimp only
                split
                · next e hb =>
                  have h1 := ih (Task.funs name desc rest) st hwf
                  rw [hb] at h1
                  exact NoUnpick_error e (fun he => h1.1 (by rw [he]))
                · next tail st1 hb =>
                  have h1 := ih (Task.funs name desc rest) st hwf
                  rw [hb] at h1
                  exact NoUnpick_ok _ _ (h1.2 tail st1 rfl)

/-- C6 (amended): for every cache state containing no corrupt entry — in
particular whenever entries are merely missing for any requested key —
traversal with caching never surfaces a deserialization
(`pickle.load`) error: missing entries are recovered by recomputing from
the rendered sources, and every cache state it produces again contains
no corrupt entry.  (A corrupt entry for the requested key is *not*
recovered: see the counterexample.) -/
theorem wellformed_cache_no_unpickling_error (env : Env) (so cb : Bool) (fuel : Nat)
    (t : Task) (st : TState) (hwf : cacheWF st.cache) :
    traverse env so cb fuel t st ≠ Except.error Err.unpicklingError ∧
    ∀ r st', traverse env so cb fuel t st = Except.ok (r, st') → cacheWF st'.cache :=
  traverse_NoUnpick env so cb fuel t st hwf

/-- C6 witness: the empty cache surfaces no deserialization error. -/
theorem wellformed_cache_no_unpickling_error_witness :
    traverse env0 true true 2 (Task.state "ceph.stage.9") st0
        ≠ Except.error Err.unpicklingError ∧
    ∀ r st', traverse env0 true true 2 (Task.state "ceph.stage.9") st0 = Except.ok (r, st') →
      cacheWF st'.cache :=
  wellformed_cache_no_unpickling_error env0 true true 2 (Task.state "ceph.stage.9") st0
    (fun e he => absurd he (List.not_mem_nil e))

/-- C6 counterexample: a corrupt (undeserializable) cache entry for the
requested key is not recovered by recomputation — `pickle.load` raises
and the error surfaces to the caller. -/
theorem corrupt_cache_error_counterexample :
    traverse env0 true true 1 (Task.state "ceph.stage.9")
      { cache := [((true, "ceph.stage.9"), CacheBlob.corrupt)], renders := 0 }
      = Except.error Err.unpicklingError := rfl

end DeepSea
